import Mathlib

/-!
Shallow embedding of `pkg/commands/worktree_mgr.go` (WorktreeMgr).

External collaborators (command executor, status loader, filesystem,
branch manager, submodule manager, config/environment lookups) are
modelled as an explicit environment `Env` of pure functions.  Every
operation of the manager is embedded as a Lean function returning the
ordered list of external calls it issues (`List Event`) together with
its result (`Except Err α`).  Errors are carried as strings, matching
the Go code's use of `errors.New` with message strings.
-/

namespace WorktreeMgr

/-- Errors are propagated verbatim as strings (`errors.New(...)` / raw
command errors). -/
abbrev Err := String

end WorktreeMgr

deriving instance DecidableEq for Except

namespace WorktreeMgr

/-- Embeds `models.File`.  Modelled from the spec:
the `models.File` record itself is outside this excerpt; the spec's data
model gives it a path name, an optional previous name (non-empty iff the
record is a rename), a two-character short status code, and the boolean
flags has-staged-changes, has-merge-conflicts, added and tracked. -/
structure File where
  name : String
  previousName : String
  shortStatus : String
  hasStagedChanges : Bool
  hasMergeConflicts : Bool
  added : Bool
  tracked : Bool
  deriving DecidableEq, Repr

/-- Modelled from the spec: `models.File.IsRename` is outside this
excerpt; per the spec a record is a rename iff previous-name is set and
non-empty. -/
def File.isRename (f : File) : Bool := f.previousName ≠ ""

/-- Modelled from the spec: `models.File.GetIsTracked` is outside this
excerpt; it reads the tracked flag of the record. -/
def File.getIsTracked (f : File) : Bool := f.tracked

/-- Embeds `SubmoduleConfig`: opaque to this core, which only checks
non-emptiness of the list and forwards it. -/
structure SubmoduleConfig where
  name : String
  deriving DecidableEq, Repr

/-- Reset mode for `ResetToRef` (the code only uses `HARD` here). -/
inductive ResetMode where
  | soft
  | mixed
  | hard
  deriving DecidableEq, Repr

/-- A command object: a command line plus an execution mode flag
(shell-escalated or not), as built by `BuildShellCmdObj` etc. -/
structure CmdObj where
  str : String
  shell : Bool
  deriving DecidableEq, Repr

/-- Embeds `BuildShellCmdObj`. -/
def buildShellCmdObj (s : String) : CmdObj := { str := s, shell := true }

/-- One observable external call issued by the manager. -/
inductive Event where
  | runGit (cmd : String)
  | loadStatusFiles (noRenames : Bool)
  | removeFile (path : String)
  | osRemove (path : String)
  | getConfigs
  | stashAndReset (configs : List SubmoduleConfig)
  | resetToRef (ref : String) (mode : ResetMode)
  | getConfigValue (key : String)
  | getenv (name : String)
  | run (cmd : String)
  deriving DecidableEq, Repr

/-- Git-mutation and filesystem-mutation calls, as opposed to pure
queries (status reload, config fetch, config/environment reads, probes). -/
def Event.isMutation : Event → Bool
  | .runGit _ => true
  | .removeFile _ => true
  | .osRemove _ => true
  | .stashAndReset _ => true
  | .resetToRef _ _ => true
  | _ => false

/-- The environment of external collaborators: what each call would
return if issued. -/
structure Env where
  runGit : String → Except Err Unit
  loadStatusFiles : Bool → List File
  removeFile : String → Except Err Unit
  osRemove : String → Except Err Unit
  getConfigs : Except Err (List SubmoduleConfig)
  stashAndReset : List SubmoduleConfig → Except Err Unit
  resetToRef : String → ResetMode → Except Err Unit
  editCommand : String
  getConfigValue : String → String
  getenv : String → String
  run : String → Except Err Unit
  quote : String → String

/-- Embeds `UnStageFile` (worktree_mgr.go lines 78-90): per path, run
either the cached removal or the reset command, returning the first
error. -/
def unStageFile (env : Env) (fileNames : List String) (reset : Bool) :
    List Event × Except Err Unit :=
  match fileNames with
  | [] => ([], Except.ok ())
  | name :: restNames =>
    let cmd := (if reset then "reset HEAD -- " else "rm --cached --force -- ") ++ env.quote name
    match env.runGit cmd with
    | Except.error e => ([Event.runGit cmd], Except.error e)
    | Except.ok _ =>
      let (tr, r) := unStageFile env restNames reset
      (Event.runGit cmd :: tr, r)

/-- The Go `for` loop over the status files keeps overwriting the match
variable, so the last matching element wins. -/
def lastMatching {α : Type} (p : α → Bool) (l : List α) : Option α :=
  l.foldl (fun acc x => if p x then some x else acc) none

/-- Embeds `beforeAndAfterFileForRename` (worktree_mgr.go lines 92-124):
refetch all files with the no-renames flag, locate the record matching
the previous name and the record matching the current name, and guard
against missing halves and nested renames. -/
def beforeAndAfterFileForRename (env : Env) (file : File) :
    List Event × Except Err (File × File) :=
  if !file.isRename then ([], Except.error "Expected renamed file")
  else
    let filesWithoutRenames := env.loadStatusFiles true
    let beforeFile := lastMatching (fun f => f.name == file.previousName) filesWithoutRenames
    let afterFile := lastMatching (fun f => f.name == file.name) filesWithoutRenames
    match beforeFile, afterFile with
    | some b, some a =>
      if b.isRename || a.isRename then
        ([Event.loadStatusFiles true], Except.error "Nested rename found")
      else
        ([Event.loadStatusFiles true], Except.ok (b, a))
    | _, _ =>
      ([Event.loadStatusFiles true],
       Except.error "Could not find deleted file or new file for file rename")

/-- Embeds `DiscardUnstagedFileChanges` (worktree_mgr.go lines 212-215). -/
def discardUnstagedFileChanges (env : Env) (file : File) :
    List Event × Except Err Unit :=
  let quotedFileName := env.quote file.name
  ([Event.runGit ("checkout -- " ++ quotedFileName)],
   env.runGit ("checkout -- " ++ quotedFileName))

/-- The non-rename tail of `DiscardAllFileChanges` (worktree_mgr.go
lines 145-175): the decision table over the short status code and the
staged/conflict/added flags. -/
def discardNonRenameFileChanges (env : Env) (file : File) :
    List Event × Except Err Unit :=
  let quotedFileName := env.quote file.name
  if file.shortStatus = "AA" then
    let cmd1 := "checkout --ours --  " ++ quotedFileName
    match env.runGit cmd1 with
    | Except.error e => ([Event.runGit cmd1], Except.error e)
    | Except.ok _ =>
      let cmd2 := "add " ++ quotedFileName
      ([Event.runGit cmd1, Event.runGit cmd2], env.runGit cmd2)
  else if file.shortStatus = "DU" then
    let cmd := "rm " ++ quotedFileName
    ([Event.runGit cmd], env.runGit cmd)
  else
    let rest : List Event × Except Err Unit :=
      if file.shortStatus = "DD" ∨ file.shortStatus = "AU" then ([], Except.ok ())
      else if file.added then
        ([Event.removeFile file.name], env.removeFile file.name)
      else discardUnstagedFileChanges env file
    if file.hasStagedChanges || file.hasMergeConflicts then
      let resetCmd := "reset -- " ++ quotedFileName
      match env.runGit resetCmd with
      | Except.error e => ([Event.runGit resetCmd], Except.error e)
      | Except.ok _ => (Event.runGit resetCmd :: rest.1, rest.2)
    else rest

/-- Embeds `DiscardAllFileChanges` (worktree_mgr.go lines 127-176) with
an explicit recursion-depth bound: the Go function recurses on the two
halves of a rename; the nested-rename guard in
`beforeAndAfterFileForRename` keeps those halves non-renames, so the
bound of 2 used by `discardAllFileChanges` below is never exhausted
(proved as fuel-stability in the termination claim). -/
def discardAllFileChangesFuel (env : Env) : Nat → File → List Event × Except Err Unit
  | 0, _ => ([], Except.error "recursion depth exceeded")
  | fuel + 1, file =>
    if file.isRename then
      match beforeAndAfterFileForRename env file with
      | (tr, Except.error e) => (tr, Except.error e)
      | (tr, Except.ok (beforeFile, afterFile)) =>
        match discardAllFileChangesFuel env fuel beforeFile with
        | (tr2, Except.error e) => (tr ++ tr2, Except.error e)
        | (tr2, Except.ok _) =>
          let (tr3, r) := discardAllFileChangesFuel env fuel afterFile
          (tr ++ tr2 ++ tr3, r)
    else
      discardNonRenameFileChanges env file

/-- `DiscardAllFileChanges` itself: depth 2 covers the single level of
recursion the rename case performs. -/
def discardAllFileChanges (env : Env) (file : File) : List Event × Except Err Unit :=
  discardAllFileChangesFuel env 2 file

/-- Embeds `filetree.FileNode`.  Modelled from the spec: the file-tree
structure is outside this excerpt; per the spec a directory node
optionally wraps a single file record and aggregates child nodes, and
can enumerate contained records and filter them by predicate.  The Go
struct carries a path, an optional file and a child list. -/
inductive FileNode where
  | node (path : String) (file : Option File) (children : List FileNode)
  deriving Repr

/-- Modelled from the spec: `FileNode.GetPath` returns the node's path. -/
def FileNode.getPath : FileNode → String
  | .node path _ _ => path

/-- The node's wrapped file record, if it is a file leaf. -/
def FileNode.file : FileNode → Option File
  | .node _ f _ => f

mutual

/-- Modelled from the spec: `FileNode.GetPathsMatching` collects the
paths of all nodes in the tree satisfying the predicate. -/
def FileNode.getPathsMatching (p : FileNode → Bool) : FileNode → List String
  | .node path file children =>
    (if p (.node path file children) then [path] else []) ++
      getPathsMatchingList p children

/-- Collects matching paths across a list of sibling nodes. -/
def getPathsMatchingList (p : FileNode → Bool) : List FileNode → List String
  | [] => []
  | n :: rest => FileNode.getPathsMatching p n ++ getPathsMatchingList p rest

end

/-- The predicate used by `removeUntrackedDirFiles`: the node wraps a
file record that is not tracked. -/
def untrackedLeaf (n : FileNode) : Bool :=
  match n.file with
  | some f => !f.getIsTracked
  | none => false

/-- The `for` loop of `removeUntrackedDirFiles`: delete each path from
disk in order, returning the first error. -/
def removePaths (env : Env) : List String → List Event × Except Err Unit
  | [] => ([], Except.ok ())
  | path :: restPaths =>
    match env.osRemove path with
    | Except.error e => ([Event.osRemove path], Except.error e)
    | Except.ok _ =>
      let (tr, r) := removePaths env restPaths
      (Event.osRemove path :: tr, r)

/-- Embeds `removeUntrackedDirFiles` (worktree_mgr.go lines 196-209). -/
def removeUntrackedDirFiles (env : Env) (node : FileNode) :
    List Event × Except Err Unit :=
  removePaths env (node.getPathsMatching untrackedLeaf)

/-- Embeds `DiscardUnstagedDirChanges` (worktree_mgr.go lines 183-194):
remove the untracked leaves from disk, then check out the directory
path. -/
def discardUnstagedDirChanges (env : Env) (node : FileNode) :
    List Event × Except Err Unit :=
  match removeUntrackedDirFiles env node with
  | (tr, Except.error e) => (tr, Except.error e)
  | (tr, Except.ok _) =>
    let quotedPath := env.quote node.getPath
    (tr ++ [Event.runGit ("checkout -- " ++ quotedPath)],
     env.runGit ("checkout -- " ++ quotedPath))

/-- Embeds `RemoveUntrackedFiles` (worktree_mgr.go lines 238-240). -/
def removeUntrackedFiles (env : Env) : List Event × Except Err Unit :=
  ([Event.runGit "clean -fd"], env.runGit "clean -fd")

/-- Embeds `ResetAndClean` (worktree_mgr.go lines 243-260): fetch the
submodule configs, stash-and-reset them when any exist, hard-reset to
HEAD, then remove untracked files; each failure aborts the sequence. -/
def resetAndClean (env : Env) : List Event × Except Err Unit :=
  match env.getConfigs with
  | Except.error e => ([Event.getConfigs], Except.error e)
  | Except.ok submoduleConfigs =>
    let stashPart : List Event × Except Err Unit :=
      if submoduleConfigs.length > 0 then
        ([Event.stashAndReset submoduleConfigs], env.stashAndReset submoduleConfigs)
      else ([], Except.ok ())
    match stashPart with
    | (tr, Except.error e) => (Event.getConfigs :: tr, Except.error e)
    | (tr, Except.ok _) =>
      match env.resetToRef "HEAD" ResetMode.hard with
      | Except.error e =>
        (Event.getConfigs :: tr ++ [Event.resetToRef "HEAD" ResetMode.hard], Except.error e)
      | Except.ok _ =>
        (Event.getConfigs :: tr ++ Event.resetToRef "HEAD" ResetMode.hard ::
           (removeUntrackedFiles env).1,
         (removeUntrackedFiles env).2)

/-- The error message of worktree_mgr.go line 284 (the spec's
NoEditorConfiguredError). -/
def noEditorConfiguredError : Err :=
  "No editor defined in config file, $GIT_EDITOR, $VISUAL, $EDITOR, or git config"

/-- Embeds `EditFileCmdObj` (worktree_mgr.go lines 262-290): resolve an
editor through the ordered fallback chain, consulting each later source
only while the resolved editor is still empty; build a shell-mode
command on success. -/
def editFileCmdObj (env : Env) (filename : String) :
    List Event × Except Err CmdObj :=
  let ed1 := env.editCommand
  let s2 : List Event × String :=
    if ed1 = "" then ([Event.getConfigValue "core.editor"], env.getConfigValue "core.editor")
    else ([], ed1)
  let s3 : List Event × String :=
    if s2.2 = "" then (s2.1 ++ [Event.getenv "GIT_EDITOR"], env.getenv "GIT_EDITOR")
    else s2
  let s4 : List Event × String :=
    if s3.2 = "" then (s3.1 ++ [Event.getenv "VISUAL"], env.getenv "VISUAL")
    else s3
  let s5 : List Event × String :=
    if s4.2 = "" then (s4.1 ++ [Event.getenv "EDITOR"], env.getenv "EDITOR")
    else s4
  let s6 : List Event × String :=
    if s5.2 = "" then
      (s5.1 ++ [Event.run "which vi"],
       match env.run "which vi" with
       | Except.ok _ => "vi"
       | Except.error _ => "")
    else s5
  if s6.2 = "" then (s6.1, Except.error noEditorConfiguredError)
  else (s6.1, Except.ok (buildShellCmdObj (s6.2 ++ " " ++ env.quote filename)))

/-- Status-reload events, for counting how often the loader is hit. -/
def Event.isLoad : Event → Bool
  | .loadStatusFiles _ => true
  | _ => false

/-- Git commands issued through the executor. -/
def Event.isGitCommand : Event → Bool
  | .runGit _ => true
  | _ => false

/-- Number of status reloads in a trace. -/
def countLoads (tr : List Event) : Nat := tr.countP Event.isLoad

/-- The two messages produced by `beforeAndAfterFileForRename` when the
rename cannot be resolved (the spec's RenameResolutionError). -/
def isRenameResolutionError (e : Err) : Bool :=
  e = "Could not find deleted file or new file for file rename" ∨ e = "Nested rename found"

/-- A sample environment in which every collaborator call succeeds, the
status listing is empty, no editor source is set and the vi probe fails. -/
def sampleEnv : Env where
  runGit := fun _ => Except.ok ()
  loadStatusFiles := fun _ => []
  removeFile := fun _ => Except.ok ()
  osRemove := fun _ => Except.ok ()
  getConfigs := Except.ok []
  stashAndReset := fun _ => Except.ok ()
  resetToRef := fun _ _ => Except.ok ()
  editCommand := ""
  getConfigValue := fun _ => ""
  getenv := fun _ => ""
  run := fun _ => Except.error "vi not found"
  quote := fun s => s

section Lemmas

variable (env : Env)

lemma lastMatching_eq_none {α : Type} (p : α → Bool) (l : List α) :
    lastMatching p l = none ↔ ∀ x ∈ l, p x = false := by
  have key : ∀ acc : Option α,
      l.foldl (fun acc x => if p x then some x else acc) acc = none ↔
        acc = none ∧ ∀ x ∈ l, p x = false := by
    induction l with
    | nil => intro acc; simp
    | cons x xs ih =>
      intro acc
      simp only [List.foldl_cons, ih, List.mem_cons]
      by_cases hx : p x <;> simp [hx]
  simpa [lastMatching] using key none

lemma discardFuel_succ_nonrename (file : File) (fuel : Nat)
    (h : file.isRename = false) :
    discardAllFileChangesFuel env (fuel + 1) file = discardNonRenameFileChanges env file := by
  simp [discardAllFileChangesFuel, h]

lemma discardAllFileChanges_nonrename (file : File) (h : file.isRename = false) :
    discardAllFileChanges env file = discardNonRenameFileChanges env file :=
  discardFuel_succ_nonrename env file 1 h

lemma beforeAndAfter_trace (file : File) (h : file.isRename = true) :
    (beforeAndAfterFileForRename env file).1 = [Event.loadStatusFiles true] := by
  unfold beforeAndAfterFileForRename
  simp only [h, Bool.not_true, Bool.false_eq_true, if_false]
  split
  · split <;> rfl
  · rfl

lemma beforeAndAfter_ok (file : File) (tr : List Event) (b a : File)
    (h : beforeAndAfterFileForRename env file = (tr, Except.ok (b, a))) :
    tr = [Event.loadStatusFiles true] ∧ b.isRename = false ∧ a.isRename = false := by
  unfold beforeAndAfterFileForRename at h
  by_cases hr : file.isRename = true
  · simp only [hr, Bool.not_true, Bool.false_eq_true, if_false] at h
    split at h
    · rename_i b' a' hb' ha'
      split at h
      · simp at h
      · rename_i hcond
        simp only [Prod.mk.injEq, Except.ok.injEq] at h
        obtain ⟨htr, hpair⟩ := h
        obtain ⟨rfl, rfl⟩ := Prod.mk.injEq .. ▸ hpair
        simp only [Bool.or_eq_true, not_or, Bool.not_eq_true] at hcond
        exact ⟨htr.symm, hcond.1, hcond.2⟩
    · simp at h
  · simp only [Bool.not_eq_true] at hr
    simp [hr] at h

lemma countLoads_discardNonRename (file : File) :
    countLoads (discardNonRenameFileChanges env file).1 = 0 := by
  have key : ∀ ev ∈ (discardNonRenameFileChanges env file).1, Event.isLoad ev = false := by
    unfold discardNonRenameFileChanges discardUnstagedFileChanges
    intro ev hev
    repeat' split at hev
    all_goals (try rcases h1 : env.runGit ("checkout --ours --  " ++ env.quote file.name) with _ | _)
    all_goals (try rcases h2 : env.runGit ("reset -- " ++ env.quote file.name) with _ | _)
    all_goals (try rcases h3 : env.runGit ("checkout -- " ++ env.quote file.name) with _ | _)
    all_goals simp_all [Event.isLoad]
    all_goals (rcases hev with rfl | rfl <;> rfl)
  simpa [countLoads, List.countP_eq_zero] using key

end Lemmas

/-- Claim C10: `UnStageFile` on an empty path list succeeds and issues
no commands, for either value of the reset flag. -/
theorem unStageFile_empty_no_commands (env : Env) (reset : Bool) :
    unStageFile env [] reset = ([], Except.ok ()) := rfl

/-- Claim C7: with `reset = false`, `UnStageFile` issues one cached
removal per path in list order; if every command succeeds the whole call
succeeds having issued them all, and at the first failing path it stops,
returning that command's error, with the earlier commands issued exactly
once and not rolled back. -/
theorem unStageFile_in_order_first_error (env : Env) :
    (∀ paths : List String,
       (∀ q ∈ paths, env.runGit ("rm --cached --force -- " ++ env.quote q) = Except.ok ()) →
       unStageFile env paths false =
         (paths.map (fun q => Event.runGit ("rm --cached --force -- " ++ env.quote q)),
          Except.ok ())) ∧
    (∀ (pre : List String) (p : String) (post : List String) (e : Err),
       (∀ q ∈ pre, env.runGit ("rm --cached --force -- " ++ env.quote q) = Except.ok ()) →
       env.runGit ("rm --cached --force -- " ++ env.quote p) = Except.error e →
       unStageFile env (pre ++ p :: post) false =
         (pre.map (fun q => Event.runGit ("rm --cached --force -- " ++ env.quote q)) ++
            [Event.runGit ("rm --cached --force -- " ++ env.quote p)],
          Except.error e)) := by
  constructor
  · intro paths
    induction paths with
    | nil => intro _; rfl
    | cons q rest ih =>
      intro hok
      have hq := hok q (List.mem_cons_self q rest)
      have hrest := ih (fun x hx => hok x (List.mem_cons_of_mem q hx))
      simp [unStageFile, hq, hrest]
  · intro pre p post e hok hfail
    induction pre with
    | nil => simp [unStageFile, hfail]
    | cons q rest ih =>
      have hq := hok q (List.mem_cons_self q rest)
      have hrest := ih (fun x hx => hok x (List.mem_cons_of_mem q hx))
      simp [unStageFile, hq, hrest]

/-- The environment used to witness claim C7: the cached removal of
a.txt fails, everything else succeeds. -/
def envFailA : Env :=
  { sampleEnv with
      runGit := fun c =>
        if c = "rm --cached --force -- a.txt" then Except.error "boom" else Except.ok () }

/-- Witness for claim C7 at a concrete two-path list whose second
command fails. -/
theorem unStageFile_in_order_first_error_witness :
    unStageFile envFailA ["b.txt", "a.txt"] false =
      ([Event.runGit "rm --cached --force -- b.txt",
        Event.runGit "rm --cached --force -- a.txt"], Except.error "boom") :=
  (unStageFile_in_order_first_error envFailA).2 ["b.txt"] "a.txt" [] "boom"
    (by decide) (by decide)

/-- Claim C2: for a non-rename record with short status "AA",
`DiscardAllFileChanges` issues exactly the checkout-ours command and
then the add command: if the checkout fails its error is returned and
the add is never issued; otherwise both are issued and the add's result
is returned; no third command is issued in any case. -/
theorem discardAllFileChanges_AA_two_commands (env : Env) (file : File)
    (hnr : file.isRename = false) (hAA : file.shortStatus = "AA") :
    (∀ e, env.runGit ("checkout --ours --  " ++ env.quote file.name) = Except.error e →
       discardAllFileChanges env file =
         ([Event.runGit ("checkout --ours --  " ++ env.quote file.name)], Except.error e)) ∧
    (env.runGit ("checkout --ours --  " ++ env.quote file.name) = Except.ok () →
       discardAllFileChanges env file =
         ([Event.runGit ("checkout --ours --  " ++ env.quote file.name),
           Event.runGit ("add " ++ env.quote file.name)],
          env.runGit ("add " ++ env.quote file.name))) := by
  rw [discardAllFileChanges_nonrename env file hnr]
  constructor
  · intro e he
    simp [discardNonRenameFileChanges, hAA, he]
  · intro hok
    simp [discardNonRenameFileChanges, hAA, hok]

/-- A concrete "AA" conflict record. -/
def fileAA : File :=
  { name := "x", previousName := "", shortStatus := "AA",
    hasStagedChanges := false, hasMergeConflicts := true, added := false, tracked := true }

/-- Witness for claim C2: in the all-success environment the "AA"
discard issues exactly checkout-ours then add. -/
theorem discardAllFileChanges_AA_two_commands_witness :
    discardAllFileChanges sampleEnv fileAA =
      ([Event.runGit "checkout --ours --  x", Event.runGit "add x"], Except.ok ()) :=
  (discardAllFileChanges_AA_two_commands sampleEnv fileAA rfl rfl).2 rfl

/-- Claim C4: for a non-rename record with short status "DD" or "AU"
that has staged changes or merge conflicts, `DiscardAllFileChanges`
issues the index reset for the path and then stops: the trace is the
reset alone, whether it fails or succeeds. -/
theorem discardAllFileChanges_DD_AU_reset_only (env : Env) (file : File)
    (hnr : file.isRename = false)
    (hss : file.shortStatus = "DD" ∨ file.shortStatus = "AU")
    (hflags : (file.hasStagedChanges || file.hasMergeConflicts) = true) :
    (∀ e, env.runGit ("reset -- " ++ env.quote file.name) = Except.error e →
       discardAllFileChanges env file =
         ([Event.runGit ("reset -- " ++ env.quote file.name)], Except.error e)) ∧
    (env.runGit ("reset -- " ++ env.quote file.name) = Except.ok () →
       discardAllFileChanges env file =
         ([Event.runGit ("reset -- " ++ env.quote file.name)], Except.ok ())) := by
  rw [discardAllFileChanges_nonrename env file hnr]
  have hAA : ¬file.shortStatus = "AA" := by rcases hss with h | h <;> simp [h]
  have hDU : ¬file.shortStatus = "DU" := by rcases hss with h | h <;> simp [h]
  constructor
  · intro e he
    simp [discardNonRenameFileChanges, hAA, hDU, hss, hflags, he]
  · intro hok
    simp [discardNonRenameFileChanges, hAA, hDU, hss, hflags, hok]

/-- A concrete deleted-deleted conflict record with merge conflicts. -/
def fileDDconflict : File :=
  { name := "x", previousName := "", shortStatus := "DD",
    hasStagedChanges := false, hasMergeConflicts := true, added := false, tracked := true }

/-- Witness for claim C4: in the all-success environment the "DD"
discard issues exactly the reset. -/
theorem discardAllFileChanges_DD_AU_reset_only_witness :
    discardAllFileChanges sampleEnv fileDDconflict =
      ([Event.runGit "reset -- x"], Except.ok ()) :=
  (discardAllFileChanges_DD_AU_reset_only sampleEnv fileDDconflict rfl (Or.inl rfl)
    rfl).2 rfl

/-- A newly-added unstaged record whose short status is "DD": the input
on which claim C3 fails. -/
def fileAddedDD : File :=
  { name := "foo", previousName := "", shortStatus := "DD",
    hasStagedChanges := false, hasMergeConflicts := false, added := true, tracked := true }

/-- Counterexample to claim C3 as stated: `fileAddedDD` is a non-rename
record with Added=true, HasStagedChanges=false and short status neither
"AA" nor "DU", yet `DiscardAllFileChanges` returns success with an empty
trace — in particular it never asks the filesystem collaborator to
delete the file. -/
theorem discardAllFileChanges_added_unstaged_counterexample :
    fileAddedDD.isRename = false ∧ fileAddedDD.added = true ∧
    fileAddedDD.hasStagedChanges = false ∧
    fileAddedDD.shortStatus ≠ "AA" ∧ fileAddedDD.shortStatus ≠ "DU" ∧
    discardAllFileChanges sampleEnv fileAddedDD = ([], Except.ok ()) ∧
    Event.removeFile fileAddedDD.name ∉ (discardAllFileChanges sampleEnv fileAddedDD).1 := by
  refine ⟨rfl, rfl, rfl, by decide, by decide, rfl, by decide⟩

/-- Claim C3 as amended: for a non-rename record with Added=true,
HasStagedChanges=false, HasMergeConflicts=false and short status none of
"AA", "DU", "DD", "AU", `DiscardAllFileChanges` deletes the file from
disk through the filesystem collaborator and issues zero git commands. -/
theorem discardAllFileChanges_added_unstaged_deletes (env : Env) (file : File)
    (hnr : file.isRename = false) (hadd : file.added = true)
    (hstaged : file.hasStagedChanges = false) (hconf : file.hasMergeConflicts = false)
    (hAA : file.shortStatus ≠ "AA") (hDU : file.shortStatus ≠ "DU")
    (hDD : file.shortStatus ≠ "DD") (hAU : file.shortStatus ≠ "AU") :
    discardAllFileChanges env file = ([Event.removeFile file.name], env.removeFile file.name) ∧
    ∀ ev ∈ (discardAllFileChanges env file).1, ev.isGitCommand = false := by
  rw [discardAllFileChanges_nonrename env file hnr]
  have h : discardNonRenameFileChanges env file =
      ([Event.removeFile file.name], env.removeFile file.name) := by
    simp [discardNonRenameFileChanges, hAA, hDU, hDD, hAU, hadd, hstaged, hconf]
  rw [h]
  exact ⟨rfl, by simp [Event.isGitCommand]⟩

/-- A newly-added unstaged record with an untracked-file status. -/
def fileAddedNew : File :=
  { name := "foo", previousName := "", shortStatus := "??",
    hasStagedChanges := false, hasMergeConflicts := false, added := true, tracked := false }

/-- Witness for the amended claim C3 at a concrete added, unstaged
record. -/
theorem discardAllFileChanges_added_unstaged_deletes_witness :
    discardAllFileChanges sampleEnv fileAddedNew =
      ([Event.removeFile "foo"], Except.ok ()) :=
  (discardAllFileChanges_added_unstaged_deletes sampleEnv fileAddedNew rfl rfl rfl rfl
    (by decide) (by decide) (by decide) (by decide)).1

/-- Claim C5: `EditFileCmdObj` tries the user-configured edit command,
then core.editor, then GIT_EDITOR, VISUAL, EDITOR, then a "which vi"
probe; it builds a shell-mode command from the first non-empty candidate
without consulting any later source, and errors with
NoEditorConfiguredError exactly when all six come up empty. -/
theorem editFileCmdObj_fallback_chain (env : Env) (filename : String) :
    (env.editCommand ≠ "" →
       editFileCmdObj env filename =
         ([], Except.ok (buildShellCmdObj (env.editCommand ++ " " ++ env.quote filename)))) ∧
    (env.editCommand = "" → env.getConfigValue "core.editor" ≠ "" →
       editFileCmdObj env filename =
         ([Event.getConfigValue "core.editor"],
          Except.ok (buildShellCmdObj
            (env.getConfigValue "core.editor" ++ " " ++ env.quote filename)))) ∧
    (env.editCommand = "" → env.getConfigValue "core.editor" = "" →
     env.getenv "GIT_EDITOR" ≠ "" →
       editFileCmdObj env filename =
         ([Event.getConfigValue "core.editor", Event.getenv "GIT_EDITOR"],
          Except.ok (buildShellCmdObj (env.getenv "GIT_EDITOR" ++ " " ++ env.quote filename)))) ∧
    (env.editCommand = "" → env.getConfigValue "core.editor" = "" →
     env.getenv "GIT_EDITOR" = "" → env.getenv "VISUAL" ≠ "" →
       editFileCmdObj env filename =
         ([Event.getConfigValue "core.editor", Event.getenv "GIT_EDITOR",
           Event.getenv "VISUAL"],
          Except.ok (buildShellCmdObj (env.getenv "VISUAL" ++ " " ++ env.quote filename)))) ∧
    (env.editCommand = "" → env.getConfigValue "core.editor" = "" →
     env.getenv "GIT_EDITOR" = "" → env.getenv "VISUAL" = "" → env.getenv "EDITOR" ≠ "" →
       editFileCmdObj env filename =
         ([Event.getConfigValue "core.editor", Event.getenv "GIT_EDITOR",
           Event.getenv "VISUAL", Event.getenv "EDITOR"],
          Except.ok (buildShellCmdObj (env.getenv "EDITOR" ++ " " ++ env.quote filename)))) ∧
    (env.editCommand = "" → env.getConfigValue "core.editor" = "" →
     env.getenv "GIT_EDITOR" = "" → env.getenv "VISUAL" = "" → env.getenv "EDITOR" = "" →
     env.run "which vi" = Except.ok () →
       editFileCmdObj env filename =
         ([Event.getConfigValue "core.editor", Event.getenv "GIT_EDITOR",
           Event.getenv "VISUAL", Event.getenv "EDITOR", Event.run "which vi"],
          Except.ok (buildShellCmdObj ("vi " ++ env.quote filename)))) ∧
    (∀ e, env.editCommand = "" → env.getConfigValue "core.editor" = "" →
     env.getenv "GIT_EDITOR" = "" → env.getenv "VISUAL" = "" → env.getenv "EDITOR" = "" →
     env.run "which vi" = Except.error e →
       editFileCmdObj env filename =
         ([Event.getConfigValue "core.editor", Event.getenv "GIT_EDITOR",
           Event.getenv "VISUAL", Event.getenv "EDITOR", Event.run "which vi"],
          Except.error noEditorConfiguredError)) := by
  refine ⟨?_, ?_, ?_, ?_, ?_, ?_, ?_⟩
  · intro h1
    simp [editFileCmdObj, h1, buildShellCmdObj]
  · intro h1 h2
    simp [editFileCmdObj, h1, h2, buildShellCmdObj]
  · intro h1 h2 h3
    simp [editFileCmdObj, h1, h2, h3, buildShellCmdObj]
  · intro h1 h2 h3 h4
    simp [editFileCmdObj, h1, h2, h3, h4, buildShellCmdObj]
  · intro h1 h2 h3 h4 h5
    simp [editFileCmdObj, h1, h2, h3, h4, h5, buildShellCmdObj]
  · intro h1 h2 h3 h4 h5 h6
    simp [editFileCmdObj, h1, h2, h3, h4, h5, h6, buildShellCmdObj]
  · intro e h1 h2 h3 h4 h5 h6
    simp [editFileCmdObj, h1, h2, h3, h4, h5, h6, buildShellCmdObj]

/-- Witness for claim C5: in the environment with every source empty and
a failing vi probe, `EditFileCmdObj` consults all six sources and fails
with NoEditorConfiguredError. -/
theorem editFileCmdObj_fallback_chain_witness :
    editFileCmdObj sampleEnv "f.txt" =
      ([Event.getConfigValue "core.editor", Event.getenv "GIT_EDITOR",
        Event.getenv "VISUAL", Event.getenv "EDITOR", Event.run "which vi"],
       Except.error noEditorConfiguredError) :=
  (editFileCmdObj_fallback_chain sampleEnv "f.txt").2.2.2.2.2.2 "vi not found"
    rfl rfl rfl rfl rfl rfl

/-- Claim C6: `ResetAndClean` fetches the submodule configs first; with
zero submodules it never calls stash-and-reset and performs exactly the
hard reset to HEAD followed by the untracked-file removal; with one or
more submodules it calls stash-and-reset first and a stash failure
aborts before the hard reset; every step's failure aborts the remaining
steps. -/
theorem resetAndClean_sequence (env : Env) :
    (∀ e, env.getConfigs = Except.error e →
       resetAndClean env = ([Event.getConfigs], Except.error e)) ∧
    (env.getConfigs = Except.ok [] →
       (∀ e, env.resetToRef "HEAD" ResetMode.hard = Except.error e →
          resetAndClean env =
            ([Event.getConfigs, Event.resetToRef "HEAD" ResetMode.hard], Except.error e)) ∧
       (env.resetToRef "HEAD" ResetMode.hard = Except.ok () →
          resetAndClean env =
            ([Event.getConfigs, Event.resetToRef "HEAD" ResetMode.hard,
              Event.runGit "clean -fd"],
             env.runGit "clean -fd"))) ∧
    (∀ cfgs, env.getConfigs = Except.ok cfgs → cfgs ≠ [] →
       (∀ e, env.stashAndReset cfgs = Except.error e →
          resetAndClean env =
            ([Event.getConfigs, Event.stashAndReset cfgs], Except.error e)) ∧
       (env.stashAndReset cfgs = Except.ok () →
          (∀ e, env.resetToRef "HEAD" ResetMode.hard = Except.error e →
             resetAndClean env =
               ([Event.getConfigs, Event.stashAndReset cfgs,
                 Event.resetToRef "HEAD" ResetMode.hard], Except.error e)) ∧
          (env.resetToRef "HEAD" ResetMode.hard = Except.ok () →
             resetAndClean env =
               ([Event.getConfigs, Event.stashAndReset cfgs,
                 Event.resetToRef "HEAD" ResetMode.hard, Event.runGit "clean -fd"],
                env.runGit "clean -fd")))) := by
  refine ⟨?_, ?_, ?_⟩
  · intro e he
    simp [resetAndClean, he]
  · intro hcfg
    constructor
    · intro e he
      simp [resetAndClean, removeUntrackedFiles, hcfg, he]
    · intro hok
      simp [resetAndClean, removeUntrackedFiles, hcfg, hok]
  · intro cfgs hcfg hne
    have hlen : 0 < cfgs.length := List.length_pos.mpr hne
    constructor
    · intro e he
      simp [resetAndClean, removeUntrackedFiles, hcfg, hlen, he]
    · intro hstash
      constructor
      · intro e he
        simp [resetAndClean, removeUntrackedFiles, hcfg, hlen, hstash, he]
      · intro hreset
        simp [resetAndClean, removeUntrackedFiles, hcfg, hlen, hstash, hreset]

/-- An environment with one configured submodule whose stash-and-reset
fails. -/
def envStashFail : Env :=
  { sampleEnv with
      getConfigs := Except.ok [{ name := "sub" }]
      stashAndReset := fun _ => Except.error "stash failed" }

/-- Witness for claim C6: with one submodule and a failing
stash-and-reset, `ResetAndClean` stops after the stash call, issuing
neither the hard reset nor the clean. -/
theorem resetAndClean_sequence_witness :
    resetAndClean envStashFail =
      ([Event.getConfigs, Event.stashAndReset [{ name := "sub" }]],
       Except.error "stash failed") :=
  ((resetAndClean_sequence envStashFail).2.2 [{ name := "sub" }] rfl
    (by decide)).1 "stash failed" rfl

section RemovePathsLemmas

variable (env : Env)

lemma removePaths_ok (paths : List String)
    (h : ∀ q ∈ paths, env.osRemove q = Except.ok ()) :
    removePaths env paths = (paths.map Event.osRemove, Except.ok ()) := by
  induction paths with
  | nil => rfl
  | cons q rest ih =>
    have hq := h q (List.mem_cons_self q rest)
    have hrest := ih (fun x hx => h x (List.mem_cons_of_mem q hx))
    simp [removePaths, hq, hrest]

lemma removePaths_err (pre : List String) (p : String) (post : List String) (e : Err)
    (hok : ∀ q ∈ pre, env.osRemove q = Except.ok ())
    (hfail : env.osRemove p = Except.error e) :
    removePaths env (pre ++ p :: post) =
      (pre.map Event.osRemove ++ [Event.osRemove p], Except.error e) := by
  induction pre with
  | nil => simp [removePaths, hfail]
  | cons q rest ih =>
    have hq := hok q (List.mem_cons_self q rest)
    have hrest := ih (fun x hx => hok x (List.mem_cons_of_mem q hx))
    simp [removePaths, hq, hrest]

end RemovePathsLemmas

/-- Claim C8: `DiscardUnstagedDirChanges` deletes every untracked leaf
path from disk and only then issues the single directory checkout (the
checkout is the last event of the trace); if any removal fails, the call
stops with that error, the remaining removals and the checkout are not
issued, and no git command appears in the trace at all. -/
theorem discardUnstagedDirChanges_removes_before_checkout (env : Env) (node : FileNode) :
    ((∀ q ∈ node.getPathsMatching untrackedLeaf, env.osRemove q = Except.ok ()) →
       discardUnstagedDirChanges env node =
         ((node.getPathsMatching untrackedLeaf).map Event.osRemove ++
            [Event.runGit ("checkout -- " ++ env.quote node.getPath)],
          env.runGit ("checkout -- " ++ env.quote node.getPath))) ∧
    (∀ (pre : List String) (p : String) (post : List String) (e : Err),
       node.getPathsMatching untrackedLeaf = pre ++ p :: post →
       (∀ q ∈ pre, env.osRemove q = Except.ok ()) →
       env.osRemove p = Except.error e →
       discardUnstagedDirChanges env node =
         (pre.map Event.osRemove ++ [Event.osRemove p], Except.error e) ∧
       ∀ ev ∈ (discardUnstagedDirChanges env node).1, ev.isGitCommand = false) := by
  constructor
  · intro h
    unfold discardUnstagedDirChanges removeUntrackedDirFiles
    rw [removePaths_ok env _ h]
  · intro pre p post e hsplit hok hfail
    have hrem : removePaths env (node.getPathsMatching untrackedLeaf) =
        (pre.map Event.osRemove ++ [Event.osRemove p], Except.error e) := by
      rw [hsplit]; exact removePaths_err env pre p post e hok hfail
    have heq : discardUnstagedDirChanges env node =
        (pre.map Event.osRemove ++ [Event.osRemove p], Except.error e) := by
      unfold discardUnstagedDirChanges removeUntrackedDirFiles
      rw [hrem]
    refine ⟨heq, ?_⟩
    rw [heq]
    intro ev hev
    simp only [List.mem_append, List.mem_map, List.mem_singleton] at hev
    rcases hev with ⟨q, _, rfl⟩ | rfl <;> rfl

/-- A directory node with one untracked leaf and one tracked leaf. -/
def sampleDir : FileNode :=
  FileNode.node "dir" none
    [FileNode.node "dir/a"
       (some { name := "dir/a", previousName := "", shortStatus := "??",
               hasStagedChanges := false, hasMergeConflicts := false,
               added := true, tracked := false }) [],
     FileNode.node "dir/b"
       (some { name := "dir/b", previousName := "", shortStatus := " M",
               hasStagedChanges := false, hasMergeConflicts := false,
               added := false, tracked := true }) []]

/-- Witness for claim C8: in the all-success environment the untracked
leaf of `sampleDir` is removed from disk and only afterwards is the
directory checkout issued. -/
theorem discardUnstagedDirChanges_removes_before_checkout_witness :
    discardUnstagedDirChanges sampleEnv sampleDir =
      ([Event.osRemove "dir/a", Event.runGit "checkout -- dir"], Except.ok ()) :=
  (discardUnstagedDirChanges_removes_before_checkout sampleEnv sampleDir).1
    (by intro q hq; exact rfl)

section RenameLemmas

variable (env : Env)

lemma discardFuel_succ (file : File) (fuel : Nat) :
    discardAllFileChangesFuel env (fuel + 1) file =
      if file.isRename then
        match beforeAndAfterFileForRename env file with
        | (tr, Except.error e) => (tr, Except.error e)
        | (tr, Except.ok (beforeFile, afterFile)) =>
          match discardAllFileChangesFuel env fuel beforeFile with
          | (tr2, Except.error e) => (tr ++ tr2, Except.error e)
          | (tr2, Except.ok _) =>
            let (tr3, r) := discardAllFileChangesFuel env fuel afterFile
            (tr ++ tr2 ++ tr3, r)
      else discardNonRenameFileChanges env file := rfl

/-- When the rename resolution fails, any positive recursion budget
propagates its error without further events. -/
lemma discardFuel_rename_error (file : File) (fuel : Nat) (h : file.isRename = true)
    (tr : List Event) (e : Err)
    (hba : beforeAndAfterFileForRename env file = (tr, Except.error e)) :
    discardAllFileChangesFuel env (fuel + 1) file = (tr, Except.error e) := by
  rw [discardFuel_succ, if_pos h]
  simp only [hba]

/-- When the rename resolution succeeds, the guard keeps both halves
non-renames, so any recursion budget of at least 2 processes them
through the non-rename decision table. -/
lemma discardFuel_rename_ok (file : File) (fuel : Nat) (h : file.isRename = true)
    (tr : List Event) (b a : File)
    (hba : beforeAndAfterFileForRename env file = (tr, Except.ok (b, a))) :
    discardAllFileChangesFuel env (fuel + 1 + 1) file =
      (match discardNonRenameFileChanges env b with
       | (tr2, Except.error e) => (tr ++ tr2, Except.error e)
       | (tr2, Except.ok _) =>
         let (tr3, r) := discardNonRenameFileChanges env a
         (tr ++ tr2 ++ tr3, r)) := by
  obtain ⟨-, hbr, har⟩ := beforeAndAfter_ok env file tr b a hba
  rw [discardFuel_succ, if_pos h]
  simp only [hba]
  rw [discardFuel_succ_nonrename env b fuel hbr, discardFuel_succ_nonrename env a fuel har]

/-- `DiscardAllFileChanges` on a rename whose resolution fails. -/
lemma discardAllFileChanges_rename_error (file : File) (h : file.isRename = true)
    (tr : List Event) (e : Err)
    (hba : beforeAndAfterFileForRename env file = (tr, Except.error e)) :
    discardAllFileChanges env file = (tr, Except.error e) :=
  discardFuel_rename_error env file 1 h tr e hba

/-- `DiscardAllFileChanges` on a rename whose resolution succeeds. -/
lemma discardAllFileChanges_rename_ok (file : File) (h : file.isRename = true)
    (tr : List Event) (b a : File)
    (hba : beforeAndAfterFileForRename env file = (tr, Except.ok (b, a))) :
    discardAllFileChanges env file =
      (match discardNonRenameFileChanges env b with
       | (tr2, Except.error e) => (tr ++ tr2, Except.error e)
       | (tr2, Except.ok _) =>
         let (tr3, r) := discardNonRenameFileChanges env a
         (tr ++ tr2 ++ tr3, r)) :=
  discardFuel_rename_ok env file 0 h tr b a hba

/-- Fuel-stability: any recursion budget of at least 2 computes the same
result as `discardAllFileChanges`, i.e. the recursion depth is bounded
at one. -/
lemma discardFuel_stable (file : File) :
    ∀ fuel, 2 ≤ fuel →
      discardAllFileChangesFuel env fuel file = discardAllFileChanges env file := by
  intro fuel hf
  obtain ⟨m, rfl⟩ : ∃ m, fuel = m + 1 + 1 := ⟨fuel - 2, by omega⟩
  by_cases hr : file.isRename = true
  · rcases hba : beforeAndAfterFileForRename env file with ⟨tr, r⟩
    cases r with
    | error e =>
      rw [discardFuel_rename_error env file (m + 1) hr tr e hba,
          discardAllFileChanges_rename_error env file hr tr e hba]
    | ok pair =>
      obtain ⟨b, a⟩ := pair
      rw [discardFuel_rename_ok env file m hr tr b a hba,
          discardAllFileChanges_rename_ok env file hr tr b a hba]
  · have hr' : file.isRename = false := by simpa using hr
    rw [discardFuel_succ_nonrename env file (m + 1) hr',
        discardAllFileChanges_nonrename env file hr']

end RenameLemmas

/-- Claim C9: `DiscardAllFileChanges` terminates with recursion depth
bounded at one: every recursion budget of at least 2 computes the same
result, a non-rename input never recurses (it is handled by the
non-recursive decision table), and the two records the rename branch
recurses on are guaranteed non-renames by the nested-rename guard. -/
theorem discardAllFileChanges_depth_bound (env : Env) (file : File) :
    (∀ fuel, 2 ≤ fuel →
       discardAllFileChangesFuel env fuel file = discardAllFileChanges env file) ∧
    (∀ tr b a, beforeAndAfterFileForRename env file = (tr, Except.ok (b, a)) →
       b.isRename = false ∧ a.isRename = false) ∧
    (file.isRename = false →
       discardAllFileChanges env file = discardNonRenameFileChanges env file) := by
  refine ⟨discardFuel_stable env file, ?_, discardAllFileChanges_nonrename env file⟩
  intro tr b a h
  obtain ⟨-, hbr, har⟩ := beforeAndAfter_ok env file tr b a h
  exact ⟨hbr, har⟩

/-- Witness for claim C9: a concrete rename record discarded with a
large budget gives the same result as with budget 2. -/
theorem discardAllFileChanges_depth_bound_witness :
    discardAllFileChangesFuel sampleEnv 5
        { name := "x", previousName := "old", shortStatus := "R ",
          hasStagedChanges := true, hasMergeConflicts := false,
          added := false, tracked := true } =
      discardAllFileChanges sampleEnv
        { name := "x", previousName := "old", shortStatus := "R ",
          hasStagedChanges := true, hasMergeConflicts := false,
          added := false, tracked := true } :=
  (discardAllFileChanges_depth_bound sampleEnv
    { name := "x", previousName := "old", shortStatus := "R ",
      hasStagedChanges := true, hasMergeConflicts := false,
      added := false, tracked := true }).1 5 (by omega)

/-- Claim C1: for a rename record, `DiscardAllFileChanges` hits the
no-renames status reload exactly once; a path is absent from the
reloaded listing exactly when the code's lookup comes back empty; and
whenever either half is missing from the listing or either matched half
is itself a rename, the call returns a RenameResolutionError having
issued no mutation command — its whole trace is the single reload. -/
theorem discardAllFileChanges_rename_resolution (env : Env) (file : File)
    (h : file.isRename = true) :
    countLoads (discardAllFileChanges env file).1 = 1 ∧
    (lastMatching (fun f => f.name == file.previousName) (env.loadStatusFiles true) = none ↔
       ∀ f ∈ env.loadStatusFiles true, f.name ≠ file.previousName) ∧
    (lastMatching (fun f => f.name == file.name) (env.loadStatusFiles true) = none ↔
       ∀ f ∈ env.loadStatusFiles true, f.name ≠ file.name) ∧
    ((lastMatching (fun f => f.name == file.previousName) (env.loadStatusFiles true) = none ∨
      lastMatching (fun f => f.name == file.name) (env.loadStatusFiles true) = none ∨
      (∃ b, lastMatching (fun f => f.name == file.previousName) (env.loadStatusFiles true) =
          some b ∧ b.isRename = true) ∨
      (∃ a, lastMatching (fun f => f.name == file.name) (env.loadStatusFiles true) =
          some a ∧ a.isRename = true)) →
     ∃ e, discardAllFileChanges env file = ([Event.loadStatusFiles true], Except.error e) ∧
       isRenameResolutionError e = true ∧
       ∀ ev ∈ (discardAllFileChanges env file).1, ev.isMutation = false) := by
  refine ⟨?_, ?_, ?_, ?_⟩
  · rcases hba : beforeAndAfterFileForRename env file with ⟨tr, r⟩
    have htr : tr = [Event.loadStatusFiles true] := by
      have hb := beforeAndAfter_trace env file h
      rw [hba] at hb
      exact hb
    cases r with
    | error e =>
      rw [discardAllFileChanges_rename_error env file h tr e hba]
      subst htr
      simp [countLoads, Event.isLoad]
    | ok pair =>
      obtain ⟨b, a⟩ := pair
      rw [discardAllFileChanges_rename_ok env file h tr b a hba]
      rcases hdb : discardNonRenameFileChanges env b with ⟨tr2, r2⟩
      have h2 : countLoads tr2 = 0 := by
        have hc := countLoads_discardNonRename env b
        rw [hdb] at hc
        exact hc
      rcases hda : discardNonRenameFileChanges env a with ⟨tr3, r3⟩
      have h3 : countLoads tr3 = 0 := by
        have hc := countLoads_discardNonRename env a
        rw [hda] at hc
        exact hc
      subst htr
      simp only [countLoads] at h2 h3 ⊢
      cases r2 with
      | error e =>
        simp [List.countP_append, h2, Event.isLoad]
      | ok u =>
        simp [hda, List.countP_append, h2, h3, Event.isLoad]
  · rw [lastMatching_eq_none]
    simp [beq_eq_false_iff_ne]
  · rw [lastMatching_eq_none]
    simp [beq_eq_false_iff_ne]
  · intro hcond
    have hba_err : ∃ e, beforeAndAfterFileForRename env file =
        ([Event.loadStatusFiles true], Except.error e) ∧ isRenameResolutionError e = true := by
      unfold beforeAndAfterFileForRename
      simp only [h, Bool.not_true, Bool.false_eq_true, if_false]
      rcases hb2 : lastMatching (fun f => f.name == file.previousName)
          (env.loadStatusFiles true) with _ | b' <;>
        rcases ha2 : lastMatching (fun f => f.name == file.name)
          (env.loadStatusFiles true) with _ | a' <;>
        rw [hb2, ha2]
      · exact ⟨_, rfl, by decide⟩
      · exact ⟨_, rfl, by decide⟩
      · exact ⟨_, rfl, by decide⟩
      · rcases hcond with h1 | h1 | ⟨b'', hb'', hbr⟩ | ⟨a'', ha'', har⟩
        · rw [h1] at hb2; exact absurd hb2 (by simp)
        · rw [h1] at ha2; exact absurd ha2 (by simp)
        · rw [hb''] at hb2
          obtain rfl : b'' = b' := by simpa using hb2
          refine ⟨"Nested rename found", ?_, by decide⟩
          simp [hbr]
        · rw [ha''] at ha2
          obtain rfl : a'' = a' := by simpa using ha2
          refine ⟨"Nested rename found", ?_, by decide⟩
          simp [har]
    obtain ⟨e, hba, he⟩ := hba_err
    have heq : discardAllFileChanges env file =
        ([Event.loadStatusFiles true], Except.error e) :=
      discardAllFileChanges_rename_error env file h [Event.loadStatusFiles true] e hba
    refine ⟨e, heq, he, ?_⟩
    rw [heq]
    intro ev hev
    simp only [List.mem_singleton] at hev
    subst hev
    rfl

/-- A concrete rename record with no matching halves in the (empty)
reloaded listing. -/
def fileRename : File :=
  { name := "x", previousName := "old", shortStatus := "R ",
    hasStagedChanges := true, hasMergeConflicts := false,
    added := false, tracked := true }

/-- Witness for claim C1: in the environment whose no-renames listing is
empty, discarding the rename performs the single reload and fails with
the missing-half RenameResolutionError. -/
theorem discardAllFileChanges_rename_resolution_witness :
    countLoads (discardAllFileChanges sampleEnv fileRename).1 = 1 ∧
    discardAllFileChanges sampleEnv fileRename =
      ([Event.loadStatusFiles true],
       Except.error "Could not find deleted file or new file for file rename") := by
  have hmain := discardAllFileChanges_rename_resolution sampleEnv fileRename rfl
  refine ⟨hmain.1, ?_⟩
  obtain ⟨e, heq, he, -⟩ := hmain.2.2.2 (Or.inl (by rfl))
  have : e = "Could not find deleted file or new file for file rename" := by
    have hx : discardAllFileChanges sampleEnv fileRename =
        ([Event.loadStatusFiles true],
         Except.error "Could not find deleted file or new file for file rename") := rfl
    rw [hx] at heq
    simpa using heq.symm
  rw [heq, this]

end WorktreeMgr
